import Mathlib

/-!
# Verification of the tabular viewer's resolver / loader logic

A shallow embedding of `src/tabular_viewer.py`.  Text (file contents, file
paths, cells, sheet names) is modelled as `List Char`; the file system is a
map from path to content; the external parsing libraries (`csv.Sniffer`,
`pandas`, `pyreadstat`) are abstracted as oracles on file *content*, so that
every reader goes through "read the bytes at the path, then parse them",
exactly as the Python readers do.
-/

set_option autoImplicit false

namespace TabularViewer

/-- Text is modelled as a list of characters. -/
abbrev Str := List Char

/-- Coerce a Lean string literal into the `Str` model. -/
def str (s : String) : Str := s.data

/-- A parsed tabular dataset: a header (ordered column-name list) and ordered
rows, mirroring a `pandas.DataFrame` with string-rendered cells. -/
structure Frame where
  header : List Str
  rows : List (List Str)
  deriving DecidableEq, Repr

/-- An Excel workbook: its ordered sheet directory (name, parsed sheet). -/
structure Workbook where
  sheets : List (Str × Frame)
  deriving DecidableEq, Repr

/-- Model of `csv.Sniffer`: both methods work on a text sample and may
throw (`Except.error`), as the Python methods may raise `csv.Error`. -/
structure Sniffer where
  hasHeader : Str → Except Unit Bool
  sniff : Str → Except Unit Str

/-- The external parsing environment: the sniffer plus the content-level
parsers behind `pd.ExcelFile`/`pd.read_excel` (`excelOf`, `none` = the
constructor raises) and `pyreadstat.read_sas7bdat` / `read_xport` (data
frame only; the metadata record the Python code discards is not modelled). -/
structure Env where
  sniffer : Sniffer
  excelOf : Str → Option Workbook
  sasOf : Str → Except Unit Frame
  xportOf : Str → Except Unit Frame

/-- The file-system state: path to content (`none` = the path cannot be
opened/read, so any reader raises there). -/
def Store := Str → Option Str

/-- The Python values `read_file` can return besides `None`: a single
`DataFrame`, or the dict of frames `pd.read_excel(..., sheet_name=None)`
produces (one entry per sheet of the workbook). -/
inductive PyVal where
  | frame (f : Frame)
  | frameDict (d : List (Str × Frame))
  deriving DecidableEq, Repr

/-- The kind of user input a prompt asks for. -/
inductive InputKind where
  | delimiter
  | sheet
  deriving DecidableEq, Repr

/-- Outcome of a successful (non-raising) `read_file` call: either a value
was returned, or `None` was returned after building an input prompt
(`NeedsInput(kind, options)` in the spec's vocabulary). -/
inductive RfOutcome where
  | value (v : PyVal)
  | needsInput (kind : InputKind) (options : Option (List Str))
  deriving DecidableEq, Repr

/-- The exceptions `read_file` can raise, named after the spec's taxonomy.
`ValueError('Unsupported file format')` is `unsupportedFormat`. -/
inductive Err where
  | unsupportedFormat
  | parseError
  | sheetReadError
  | statReadError
  | ioError
  deriving DecidableEq, Repr

/-- Split a character list at every occurrence of the separator character
(the behaviour of Python's `str.split(sep)` for a one-character separator:
the result is always nonempty, and separators at the ends yield empty
pieces). -/
def splitOnChar (c : Char) : Str → List Str
  | [] => [[]]
  | x :: xs =>
    match splitOnChar c xs with
    | [] => [[]]
    | h :: t => if x = c then [] :: h :: t else (x :: h) :: t

/-- Join pieces with a separator (the inverse of `splitOnChar` on
separator-free pieces). -/
def joinWith (sep : Str) : List Str → Str
  | [] => []
  | [x] => x
  | x :: xs => x ++ sep ++ joinWith sep xs

/-- Python expression `filepath.split('.')[-1].lower()` — the extension used for format
dispatch in `read_file` (for a dotless path this is the whole lowercased
path, as in Python). -/
def extOf (filepath : Str) : Str :=
  ((splitOnChar '.' filepath).getLastD []).map Char.toLower

/-- The nine supported extensions (already lowercased by `extOf`). -/
def supportedExts : List Str :=
  [str "csv", str "txt", str "xls", str "xlsx", str "xlsm", str "xltx",
   str "xltm", str "sas7bdat", str "xpt"]

/-- Python truthiness of the optional `sheet_name` argument
(`not sheet_name` is true for `None` and for the empty string). -/
def truthy : Option Str → Bool
  | none => false
  | some [] => false
  | some (_ :: _) => true

/-- Source function `detect_csv_delimiter`: open the file, read a
2048-character sample, and return the sniffed delimiter if the sniffer
judges the sample to have a header, the comma fallback if it judges not,
and `None` if opening, `has_header` or `sniff` raises. -/
def detect_csv_delimiter (E : Env) (σ : Store) (filepath : Str) : Option Str :=
  match σ filepath with
  | none => none
  | some content =>
    let sample := content.take 2048
    match E.sniffer.hasHeader sample with
    | .error _ => none
    | .ok false => some (str ",")
    | .ok true =>
      match E.sniffer.sniff sample with
      | .error _ => none
      | .ok d => some d

/-- Model of `pd.read_csv(filepath, delimiter=d)` on the file's text, with
the default `header='infer'`: the first non-blank line is the header, every
later non-blank line a data row.  A row with more fields than the header is
a parse error (pandas `ParserError`); shorter rows are padded with the empty
cell (pandas fills `NaN`).  An empty/blank file is an error
(`EmptyDataError`), as is an empty delimiter (`ValueError`); a delimiter of
two or more characters is modelled as a parse failure (the C engine only
accepts single-character separators). -/
def read_csv (content : Str) (delim : Str) : Except Unit Frame :=
  match delim with
  | [c] =>
    match (splitOnChar '\n' content).filter (· ≠ []) with
    | [] => .error ()
    | h :: rs =>
      let header := splitOnChar c h
      let rows := rs.map (splitOnChar c)
      if rows.any (fun r => header.length < r.length) then .error ()
      else .ok ⟨header, rows.map (fun r => r ++ List.replicate (header.length - r.length) [])⟩
  | _ => .error ()

/-- Model of `pd.read_excel(filepath, sheet_name=...)` on an opened
workbook: with `sheet_name=None` pandas returns the dict of *all* sheets;
with a sheet name it returns that sheet's frame, raising if the workbook has
no sheet of that name. -/
def read_excel (wb : Workbook) (sheet_name : Option Str) : Except Unit PyVal :=
  match sheet_name with
  | none => .ok (.frameDict wb.sheets)
  | some s =>
    match wb.sheets.find? (fun p => p.1 = s) with
    | some p => .ok (.frame p.2)
    | none => .error ()

/-- The CSV/TXT branch of `read_file`: detect the delimiter; a falsy result
(`None` or `''`) builds the manual-delimiter prompt and returns `None`;
otherwise parse with the detected delimiter. -/
def csvBranch (E : Env) (σ : Store) (filepath : Str) : Except Err RfOutcome :=
  match detect_csv_delimiter E σ filepath with
  | none => .ok (.needsInput .delimiter none)
  | some [] => .ok (.needsInput .delimiter none)
  | some d =>
    match σ filepath with
    | none => .error .ioError
    | some content =>
      match read_csv content d with
      | .error _ => .error .parseError
      | .ok f => .ok (.value (.frame f))

/-- The Excel branch of `read_file`: open the workbook; with 2+ sheets and a
falsy `sheet_name`, build the sheet-selection prompt (offering
`xl.sheet_names`) and return `None`; otherwise call `pd.read_excel` with
the given `sheet_name` as is. -/
def excelBranch (E : Env) (σ : Store) (filepath : Str) (sheet_name : Option Str) :
    Except Err RfOutcome :=
  match (σ filepath).bind E.excelOf with
  | none => .error .sheetReadError
  | some wb =>
    if 1 < wb.sheets.length ∧ ¬ truthy sheet_name then
      .ok (.needsInput .sheet (some (wb.sheets.map Prod.fst)))
    else
      match read_excel wb sheet_name with
      | .error _ => .error .sheetReadError
      | .ok v => .ok (.value v)

/-- The SAS branch of `read_file` (`sas7bdat` and `xpt`): read the file and
delegate to the pyreadstat reader, keeping only the data frame. -/
def statBranch (readerOf : Str → Except Unit Frame) (σ : Store) (filepath : Str) :
    Except Err RfOutcome :=
  match σ filepath with
  | none => .error .statReadError
  | some content =>
    match readerOf content with
    | .error _ => .error .statReadError
    | .ok f => .ok (.value (.frame f))

/-- Source function `read_file`: dispatch on the lowercased suffix after the
last `.` of the path; unsupported extensions raise
`ValueError('Unsupported file format')`. -/
def read_file (E : Env) (σ : Store) (filepath : Str) (sheet_name : Option Str) :
    Except Err RfOutcome :=
  let ext := extOf filepath
  if ext = str "csv" ∨ ext = str "txt" then
    csvBranch E σ filepath
  else if ext = str "xls" ∨ ext = str "xlsx" ∨ ext = str "xlsm" ∨
          ext = str "xltx" ∨ ext = str "xltm" then
    excelBranch E σ filepath sheet_name
  else if ext = str "sas7bdat" then
    statBranch E.sasOf σ filepath
  else if ext = str "xpt" then
    statBranch E.xportOf σ filepath
  else
    .error .unsupportedFormat

/-- The preview `display_table` builds: the frame's column names plus its
first 10 rows (`df.head(10)`). -/
structure Preview where
  columns : List Str
  rows : List (List Str)
  deriving DecidableEq, Repr

/-- Source function `display_table`: render the column-name list and the first 10 rows. -/
def display_table (f : Frame) : Preview :=
  ⟨f.header, f.rows.take 10⟩

/-- The observable UI effects of the handlers. -/
inductive Event where
  | displayedPreview (p : Preview)
  | openedPrompt (kind : InputKind) (options : Option (List Str))
  | notifiedError
  | parseAttempt
  | clearedPrompt
  deriving DecidableEq, Repr

/-- An upload event: the original filename and the uploaded bytes. -/
structure Upload where
  name : Str
  content : Str
  deriving DecidableEq, Repr

/-- The temp location an upload is written to, keyed by original filename
(`f"temp/{file.name}"`). -/
def tempPath (name : Str) : Str := str "temp/" ++ name

/-- Source function `handle_upload`: write the uploaded content to its temp path, then read
the file back.  A `None` result means `read_file` built a prompt; a dict
result (the single-sheet Excel case) makes `display_table` raise
`AttributeError` on `df.columns`, which the handler's `except` converts to
an error notification; any exception is likewise caught and notified. -/
def handle_upload (E : Env) (σ : Store) (u : Upload) : Store × List Event :=
  let σ1 : Store := fun p => if p = tempPath u.name then some u.content else σ p
  let events :=
    match read_file E σ1 (tempPath u.name) none with
    | .error _ => [Event.notifiedError]
    | .ok (.needsInput k opts) => [Event.openedPrompt k opts]
    | .ok (.value (.frame f)) => [Event.displayedPreview (display_table f)]
    | .ok (.value (.frameDict _)) => [Event.notifiedError]
  (σ1, events)

/-- Source function `handle_manual_delimiter`: one `pd.read_csv` attempt with the
user-supplied delimiter; on success clear the prompt and display the table,
on any exception notify the error (the prompt is not rebuilt and no further
parse is attempted). -/
def handle_manual_delimiter (σ : Store) (filepath delim : Str) : List Event :=
  match σ filepath with
  | none => [Event.parseAttempt, Event.notifiedError]
  | some content =>
    match read_csv content delim with
    | .error _ => [Event.parseAttempt, Event.notifiedError]
    | .ok f => [Event.parseAttempt, Event.clearedPrompt,
                Event.displayedPreview (display_table f)]

/-- The store effect of `shutdown`: `shutil.rmtree('temp')` removes every
file under the temp directory; nothing else is touched. -/
def shutdownStore (σ : Store) : Store :=
  fun p => if (str "temp/").isPrefixOf p then none else σ p

/-- Modelled from the spec: the CSV serialization used by the round-trip
property ("writing a dataset of N columns × M rows to CSV with comma
delimiter") — header line then one line per row, cells joined by commas,
lines joined by newlines.  The repository has no writer of its own. -/
def write_csv (f : Frame) : Str :=
  joinWith (str "\n") ((f.header :: f.rows).map (joinWith (str ",")))

/-- The empty file system. -/
def emptyStore : Store := fun _ => none

/-- A file system holding a single file. -/
def single (p c : Str) : Store := fun q => if q = p then some c else none

/-- A sniffer whose two methods return fixed results. -/
def constSniffer (hh : Except Unit Bool) (sd : Except Unit Str) : Sniffer :=
  ⟨fun _ => hh, fun _ => sd⟩

/-- A sniffer that judges every sample headerless. -/
def snifNoHeader : Sniffer := constSniffer (.ok false) (.error ())

/-- A sniffer whose `has_header` raises on every sample. -/
def snifThrows : Sniffer := constSniffer (.error ()) (.error ())

/-- A sniffer that judges every sample to have a header and sniffs `;`. -/
def snifSemicolon : Sniffer := constSniffer (.ok true) (.ok (str ";"))

/-- An environment with a given sniffer and no readable binary formats. -/
def plainEnv (sn : Sniffer) : Env :=
  ⟨sn, fun _ => none, fun _ => .error (), fun _ => .error ()⟩

/-- The extension dispatches to the CSV/TXT branch. -/
def isCsvTxt (p : Str) : Prop := extOf p = str "csv" ∨ extOf p = str "txt"

instance (p : Str) : Decidable (isCsvTxt p) := by unfold isCsvTxt; infer_instance

/-- The first non-blank line of a text file — what the modelled
`pd.read_csv` takes as the header row. -/
def firstDataLine (content : Str) : Str :=
  ((splitOnChar '\n' content).filter (· ≠ [])).headD []

/-- The UI effects of an upload, as a function of the upload alone. -/
def uploadEvents (E : Env) (u : Upload) : List Event :=
  (handle_upload E emptyStore u).2

/-- The sole sheet of the single-sheet test workbook. -/
def sheetFrame : Frame := ⟨[str "c"], [[str "v"]]⟩

/-- Sheet `A` of the two-sheet test workbook. -/
def frameA : Frame := ⟨[str "x"], [[str "1"]]⟩

/-- Sheet `B` of the two-sheet test workbook. -/
def frameB : Frame := ⟨[str "y"], [[str "2"]]⟩

/-- A workbook with exactly one sheet. -/
def wbSingle : Workbook := ⟨[(str "Sheet1", sheetFrame)]⟩

/-- A workbook with two sheets. -/
def wbDouble : Workbook := ⟨[(str "A", frameA), (str "B", frameB)]⟩

/-- An environment whose Excel parser recognises the contents `WB1`
(single-sheet workbook) and `WB2` (two-sheet workbook). -/
def excelEnv : Env :=
  ⟨snifNoHeader,
   fun c => if c = str "WB1" then some wbSingle
            else if c = str "WB2" then some wbDouble else none,
   fun _ => .error (), fun _ => .error ()⟩

/-- A store holding the two test workbooks. -/
def excelStore : Store :=
  fun p => if p = str "one.xlsx" then some (str "WB1")
           else if p = str "two.xlsx" then some (str "WB2") else none

/-- An environment for CSV tests whose sniffer judges no header. -/
def noHeaderEnv : Env := plainEnv snifNoHeader

/-- A store with one comma-delimited, headerless-looking CSV file. -/
def csvStoreC3 : Store := single (str "d.csv") (str "1,2\n3,4")

/-- An 11-row, 2-column dataset for the round-trip property. -/
def roundTripFrame : Frame :=
  ⟨[str "a", str "b"], List.replicate 11 [str "x", str "y"]⟩

/-- A store with a CSV whose second data row has more fields than the
header — a parse error under a comma delimiter. -/
def badParseStore : Store := single (str "temp/c.csv") (str "a,b\nc,d,e")


theorem splitOnChar_cons (c x : Char) (xs : Str) :
    splitOnChar c (x :: xs) =
      match splitOnChar c xs with
      | [] => [[]]
      | h :: t => if x = c then [] :: h :: t else (x :: h) :: t := rfl

theorem splitOnChar_ne_nil (c : Char) : ∀ s : Str, splitOnChar c s ≠ []
  | [] => by simp [splitOnChar]
  | x :: xs => by
    rw [splitOnChar_cons]
    cases h : splitOnChar c xs with
    | nil => simp
    | cons hh tt => dsimp; split <;> simp

theorem splitOnChar_eq_single {c : Char} : ∀ {s : Str}, c ∉ s → splitOnChar c s = [s]
  | [], _ => rfl
  | x :: xs, h => by
    have hx : ¬ x = c := fun e => h (e ▸ List.mem_cons_self x xs)
    have ih : splitOnChar c xs = [xs] :=
      splitOnChar_eq_single (fun m => h (List.mem_cons_of_mem _ m))
    rw [splitOnChar_cons, ih]
    simp [hx]

theorem splitOnChar_sep_append {c : Char} : ∀ {x : Str} (rest : Str), c ∉ x →
    splitOnChar c (x ++ c :: rest) = x :: splitOnChar c rest
  | [], rest, _ => by
    show splitOnChar c (c :: rest) = [] :: splitOnChar c rest
    rw [splitOnChar_cons]
    cases h : splitOnChar c rest with
    | nil => exact absurd h (splitOnChar_ne_nil c rest)
    | cons hh tt => simp
  | a :: x, rest, h => by
    have ha : ¬ a = c := fun e => h (e ▸ List.mem_cons_self a x)
    have ih : splitOnChar c (x ++ c :: rest) = x :: splitOnChar c rest :=
      splitOnChar_sep_append rest (fun m => h (List.mem_cons_of_mem _ m))
    show splitOnChar c (a :: (x ++ c :: rest)) = (a :: x) :: splitOnChar c rest
    rw [splitOnChar_cons, ih]
    simp [ha]

theorem joinWith_cons_cons (sep x y : Str) (t : List Str) :
    joinWith sep (x :: y :: t) = x ++ sep ++ joinWith sep (y :: t) := rfl

theorem splitOnChar_joinWith {c : Char} : ∀ {ls : List Str}, ls ≠ [] →
    (∀ l ∈ ls, c ∉ l) → splitOnChar c (joinWith [c] ls) = ls
  | [], hne, _ => absurd rfl hne
  | [x], _, h => by
    show splitOnChar c x = [x]
    exact splitOnChar_eq_single (h x (List.mem_singleton.mpr rfl))
  | x :: y :: t, _, h => by
    rw [joinWith_cons_cons]
    have hx : c ∉ x := h x (List.mem_cons_self x _)
    have hrec : splitOnChar c (joinWith [c] (y :: t)) = y :: t :=
      splitOnChar_joinWith (by simp) (fun l hl => h l (List.mem_cons_of_mem _ hl))
    have : x ++ [c] ++ joinWith [c] (y :: t) = x ++ c :: joinWith [c] (y :: t) := by simp
    rw [this, splitOnChar_sep_append _ hx, hrec]

theorem not_mem_joinWith {c : Char} {sep : Str} : ∀ {ls : List Str}, c ∉ sep →
    (∀ x ∈ ls, c ∉ x) → c ∉ joinWith sep ls
  | [], _, _ => by simp [joinWith]
  | [x], _, h => h x (List.mem_singleton.mpr rfl)
  | x :: y :: t, hs, h => by
    rw [joinWith_cons_cons]
    intro hmem
    rcases List.mem_append.mp hmem with hmem1 | hmem2
    · rcases List.mem_append.mp hmem1 with h1 | h2
      · exact h x (List.mem_cons_self x _) h1
      · exact hs h2
    · exact not_mem_joinWith hs (fun l hl => h l (List.mem_cons_of_mem _ hl)) hmem2

theorem joinWith_cons_ne_nil {sep x : Str} {xs : List Str} (hx : x ≠ []) :
    joinWith sep (x :: xs) ≠ [] := by
  cases xs with
  | nil => exact hx
  | cons y t =>
    rw [joinWith_cons_cons]
    simp only [ne_eq, List.append_eq_nil]
    intro hcontra
    exact hx hcontra.1.1

theorem two_le_length_splitOnChar {c : Char} : ∀ {s : Str}, c ∈ s →
    2 ≤ (splitOnChar c s).length
  | x :: xs, hmem => by
    rw [splitOnChar_cons]
    cases h : splitOnChar c xs with
    | nil => exact absurd h (splitOnChar_ne_nil c xs)
    | cons hh tt =>
      by_cases hx : x = c
      · simp [hx]
      · have hmem2 : c ∈ xs := by
          rcases List.mem_cons.mp hmem with h1 | h2
          · exact absurd h1.symm hx
          · exact h2
        have := two_le_length_splitOnChar hmem2
        rw [h] at this
        simpa [hx] using this

theorem getLast?_splitOnChar_sep (c : Char) : ∀ (s t : Str), c ∉ t →
    (splitOnChar c (s ++ c :: t)).getLast? = some t
  | [], t, h => by
    show (splitOnChar c (c :: t)).getLast? = some t
    rw [splitOnChar_cons]
    cases hsp : splitOnChar c t with
    | nil => exact absurd hsp (splitOnChar_ne_nil c t)
    | cons hh tt =>
      have : splitOnChar c t = [t] := splitOnChar_eq_single h
      rw [this] at hsp
      cases hsp
      simp
  | a :: s, t, h => by
    show (splitOnChar c (a :: (s ++ c :: t))).getLast? = some t
    rw [splitOnChar_cons]
    cases hsp : splitOnChar c (s ++ c :: t) with
    | nil => exact absurd hsp (splitOnChar_ne_nil c _)
    | cons hh tt =>
      have hlen : 2 ≤ (splitOnChar c (s ++ c :: t)).length :=
        two_le_length_splitOnChar (by simp)
      rw [hsp] at hlen
      have ih : (splitOnChar c (s ++ c :: t)).getLast? = some t :=
        getLast?_splitOnChar_sep c s t h
      rw [hsp] at ih
      cases tt with
      | nil => simp at hlen
      | cons z zs =>
        by_cases ha : a = c
        · simpa [ha] using ih
        · simp only [ha, if_false]
          rw [List.getLast?_cons_cons]
          rw [List.getLast?_cons_cons] at ih
          exact ih


theorem read_csv_singleChar (content : Str) (c : Char) :
    read_csv content [c] =
      (match (splitOnChar '\n' content).filter (· ≠ []) with
      | [] => .error ()
      | h :: rs =>
        let header := splitOnChar c h
        let rows := rs.map (splitOnChar c)
        if rows.any (fun r => header.length < r.length) then .error ()
        else .ok ⟨header, rows.map (fun r => r ++ List.replicate (header.length - r.length) [])⟩) := rfl

theorem read_csv_write_csv (f : Frame)
    (h1 : f.header ≠ [])
    (h2 : ∀ cell ∈ f.header, cell ≠ [] ∧ ',' ∉ cell ∧ '\n' ∉ cell)
    (h3 : ∀ r ∈ f.rows, r.length = f.header.length ∧
          ∀ cell ∈ r, cell ≠ [] ∧ ',' ∉ cell ∧ '\n' ∉ cell) :
    read_csv (write_csv f) (str ",") = .ok f := by
  obtain ⟨header, rows⟩ := f
  simp only at h1 h2 h3
  have hcomma : str "," = [','] := rfl
  have hnl : str "\n" = ['\n'] := rfl
  have hwrite : write_csv ⟨header, rows⟩ =
      joinWith ['\n'] ((header :: rows).map (joinWith [','])) := rfl
  rw [hcomma, hwrite, read_csv_singleChar]
  have hcells : ∀ cs ∈ header :: rows, ∀ cell ∈ cs, cell ≠ [] ∧ ',' ∉ cell ∧ '\n' ∉ cell := by
    intro cs hcs
    rcases List.mem_cons.mp hcs with rfl | hmem
    · exact h2
    · exact (h3 cs hmem).2
  have hcsne : ∀ cs ∈ header :: rows, cs ≠ [] := by
    intro cs hcs
    rcases List.mem_cons.mp hcs with rfl | hmem
    · exact h1
    · intro hnil
      have hlen := (h3 cs hmem).1
      rw [hnil] at hlen
      exact h1 (List.eq_nil_of_length_eq_zero hlen.symm)
  have hsplit : splitOnChar '\n' (joinWith ['\n'] ((header :: rows).map (joinWith [',']))) =
      (header :: rows).map (joinWith [',']) := by
    apply splitOnChar_joinWith (by simp)
    intro l hl
    obtain ⟨cs, hcs, rfl⟩ := List.mem_map.mp hl
    exact not_mem_joinWith (by decide) (fun cell hcell => ((hcells cs hcs) cell hcell).2.2)
  rw [hsplit]
  have hfilter : ((header :: rows).map (joinWith [','])).filter (· ≠ []) =
      (header :: rows).map (joinWith [',']) := by
    rw [List.filter_eq_self]
    intro l hl
    obtain ⟨cs, hcs, rfl⟩ := List.mem_map.mp hl
    have hne := hcsne cs hcs
    cases cs with
    | nil => exact absurd rfl hne
    | cons x t =>
      have hx : x ≠ [] := ((hcells _ hcs) x (List.mem_cons_self x t)).1
      simpa using joinWith_cons_ne_nil hx
  rw [hfilter, List.map_cons]
  have hrec : ∀ cs ∈ header :: rows, splitOnChar ',' (joinWith [','] cs) = cs := by
    intro cs hcs
    exact splitOnChar_joinWith (hcsne cs hcs)
      (fun cell hcell => ((hcells cs hcs) cell hcell).2.1)
  have hhead : splitOnChar ',' (joinWith [','] header) = header :=
    hrec header (List.mem_cons_self _ _)
  have hrows : (rows.map (joinWith [','])).map (splitOnChar ',') = rows := by
    rw [List.map_map]
    have : ∀ r ∈ rows, (splitOnChar ',' ∘ joinWith [',']) r = id r := by
      intro r hr
      exact hrec r (List.mem_cons_of_mem _ hr)
    rw [List.map_congr_left this, List.map_id]
  simp only [hhead, hrows]
  have hany : rows.any (fun r => header.length < r.length) = false := by
    rw [List.any_eq_false]
    intro r hr
    simp [(h3 r hr).1]
  rw [hany]
  simp only [Bool.false_eq_true, if_false]
  have hpad : rows.map (fun r => r ++ List.replicate (header.length - r.length) []) = rows := by
    have : ∀ r ∈ rows, r ++ List.replicate (header.length - r.length) ([] : Str) = id r := by
      intro r hr
      rw [(h3 r hr).1.symm]
      simp
    rw [List.map_congr_left this, List.map_id]
  rw [hpad]


theorem extOf_append_dot (a b : Str) (h : '.' ∉ b) :
    extOf (a ++ '.' :: b) = b.map Char.toLower := by
  unfold extOf
  rw [List.getLastD_eq_getLast?, getLast?_splitOnChar_sep '.' a b h]
  rfl

theorem extOf_no_dot {p : Str} (h : '.' ∉ p) : extOf p = p.map Char.toLower := by
  unfold extOf
  rw [splitOnChar_eq_single h]
  rfl

theorem read_file_csv_of {p : Str} (E : Env) (σ : Store) (sh : Option Str)
    (h : isCsvTxt p) : read_file E σ p sh = csvBranch E σ p := by
  rcases h with h | h <;> simp [read_file, h]

theorem read_file_unsupported {p : Str} (E : Env) (σ : Store) (sh : Option Str)
    (h : extOf p ∉ supportedExts) : read_file E σ p sh = .error .unsupportedFormat := by
  simp only [supportedExts, List.mem_cons, List.not_mem_nil, or_false, not_or] at h
  obtain ⟨n1, n2, n3, n4, n5, n6, n7, n8, n9⟩ := h
  simp [read_file, n1, n2, n3, n4, n5, n6, n7, n8, n9]

theorem read_file_local {E : Env} {σ σ' : Store} {p : Str} (sh : Option Str)
    (h : σ p = σ' p) : read_file E σ p sh = read_file E σ' p sh := by
  unfold read_file csvBranch excelBranch statBranch detect_csv_delimiter
  rw [h]

theorem detect_sample_only {E : Env} {σ σ' : Store} {p : Str}
    (h : (σ p).map (List.take 2048) = (σ' p).map (List.take 2048)) :
    detect_csv_delimiter E σ p = detect_csv_delimiter E σ' p := by
  cases hσ : σ p with
  | none =>
    cases hσ2 : σ' p with
    | none => unfold detect_csv_delimiter; rw [hσ, hσ2]
    | some c2 => rw [hσ, hσ2] at h; simp at h
  | some c1 =>
    cases hσ2 : σ' p with
    | none => rw [hσ, hσ2] at h; simp at h
    | some c2 =>
      rw [hσ, hσ2] at h
      have h2 : c1.take 2048 = c2.take 2048 := by simpa using h
      unfold detect_csv_delimiter
      rw [hσ, hσ2]
      dsimp only
      rw [h2]


/-- C4: the format is chosen by taking the lowercase suffix after the last
`.` as the extension; whenever that extension is not one of the nine
supported ones, `read_file` fails with the unsupported-format error, no
loader branch is reached, and the upload produces no dataset (only an error
notification). -/
theorem unsupported_extension_rejected :
    (∀ a b : Str, '.' ∉ b → extOf (a ++ '.' :: b) = b.map Char.toLower) ∧
    (∀ (E : Env) (σ : Store) (p : Str) (sh : Option Str),
      extOf p ∉ supportedExts → read_file E σ p sh = .error .unsupportedFormat) ∧
    (∀ (E : Env) (σ : Store) (u : Upload),
      extOf (tempPath u.name) ∉ supportedExts →
      (handle_upload E σ u).2 = [Event.notifiedError]) := by
  refine ⟨extOf_append_dot, fun E σ p sh h => read_file_unsupported E σ sh h, ?_⟩
  intro E σ u h
  unfold handle_upload
  dsimp only
  rw [read_file_unsupported _ _ _ h]

/-- C4 witness: `data.json` is rejected. -/
theorem unsupported_extension_rejected_witness :
    read_file noHeaderEnv emptyStore (str "data.json") none = .error .unsupportedFormat :=
  unsupported_extension_rejected.2.1 noHeaderEnv emptyStore (str "data.json") none (by decide)

/-- C10: a dotless path uses the entire lowercased path as the extension: a
path spelling a supported format name (e.g. exactly `csv`) dispatches to
that format's branch, and only dotless paths matching no format name are
rejected. -/
theorem dotless_path_extension_dispatch :
    (∀ p : Str, '.' ∉ p → extOf p = p.map Char.toLower) ∧
    (∀ (E : Env) (σ : Store) (sh : Option Str) (p : Str), '.' ∉ p →
      p.map Char.toLower = str "csv" → read_file E σ p sh = csvBranch E σ p) ∧
    (∀ (E : Env) (σ : Store) (sh : Option Str) (p : Str), '.' ∉ p →
      p.map Char.toLower ∉ supportedExts →
      read_file E σ p sh = .error .unsupportedFormat) := by
  refine ⟨fun p h => extOf_no_dot h, ?_, ?_⟩
  · intro E σ sh p h hcsv
    exact read_file_csv_of E σ sh (Or.inl ((extOf_no_dot h).trans hcsv))
  · intro E σ sh p h hn
    apply read_file_unsupported
    rw [extOf_no_dot h]
    exact hn

/-- C10 witness: the dotless path `csv` goes down the CSV branch (and
parses), while the dotless path `Makefile` is rejected. -/
theorem dotless_path_extension_dispatch_witness :
    read_file noHeaderEnv (single (str "csv") (str "1,2")) (str "csv") none =
      csvBranch noHeaderEnv (single (str "csv") (str "1,2")) (str "csv") ∧
    read_file noHeaderEnv emptyStore (str "Makefile") none = .error .unsupportedFormat :=
  ⟨dotless_path_extension_dispatch.2.1 noHeaderEnv _ none _ (by decide) (by decide),
   dotless_path_extension_dispatch.2.2 noHeaderEnv _ none _ (by decide) (by decide)⟩

/-- C9: `detect_csv_delimiter` is total within its embedding and maps every
failure (unreadable file, `has_header` raising, `sniff` raising) to `none`;
its result is always `none`, the comma fallback, or the sniffed
delimiter. -/
theorem detect_csv_delimiter_total_cases :
    ∀ (E : Env) (σ : Store) (p : Str),
    (σ p = none → detect_csv_delimiter E σ p = none) ∧
    (∀ content, σ p = some content →
      (E.sniffer.hasHeader (content.take 2048) = .error () →
        detect_csv_delimiter E σ p = none) ∧
      (E.sniffer.hasHeader (content.take 2048) = .ok false →
        detect_csv_delimiter E σ p = some (str ",")) ∧
      (E.sniffer.hasHeader (content.take 2048) = .ok true →
        E.sniffer.sniff (content.take 2048) = .error () →
        detect_csv_delimiter E σ p = none) ∧
      (∀ d, E.sniffer.hasHeader (content.take 2048) = .ok true →
        E.sniffer.sniff (content.take 2048) = .ok d →
        detect_csv_delimiter E σ p = some d)) ∧
    (detect_csv_delimiter E σ p = none ∨
      detect_csv_delimiter E σ p = some (str ",") ∨
      ∃ d, detect_csv_delimiter E σ p = some d ∧
        E.sniffer.sniff (((σ p).getD []).take 2048) = .ok d) := by
  intro E σ p
  refine ⟨?_, ?_, ?_⟩
  · intro h
    unfold detect_csv_delimiter
    rw [h]
  · intro content hc
    refine ⟨?_, ?_, ?_, ?_⟩
    · intro hh
      unfold detect_csv_delimiter
      rw [hc]
      dsimp only
      rw [hh]
    · intro hh
      unfold detect_csv_delimiter
      rw [hc]
      dsimp only
      rw [hh]
    · intro hh hs
      unfold detect_csv_delimiter
      rw [hc]
      dsimp only
      rw [hh, hs]
    · intro d hh hs
      unfold detect_csv_delimiter
      rw [hc]
      dsimp only
      rw [hh, hs]
  · cases hσ : σ p with
    | none =>
      left
      unfold detect_csv_delimiter
      rw [hσ]
    | some content =>
      cases hh : E.sniffer.hasHeader (content.take 2048) with
      | error e =>
        left
        unfold detect_csv_delimiter
        rw [hσ]
        dsimp only
        rw [hh]
      | ok b =>
        cases b with
        | false =>
          right; left
          unfold detect_csv_delimiter
          rw [hσ]
          dsimp only
          rw [hh]
        | true =>
          cases hs : E.sniffer.sniff (content.take 2048) with
          | error e =>
            left
            unfold detect_csv_delimiter
            rw [hσ]
            dsimp only
            rw [hh, hs]
          | ok d =>
            right; right
            refine ⟨d, ?_, ?_⟩
            · unfold detect_csv_delimiter
              rw [hσ]
              dsimp only
              rw [hh, hs]
            · exact hs

/-- C9 witness: a raising sniffer yields `none`, caught, not raised. -/
theorem detect_csv_delimiter_total_cases_witness :
    detect_csv_delimiter (plainEnv snifThrows) (single (str "x.csv") (str "1,2"))
      (str "x.csv") = none :=
  ((detect_csv_delimiter_total_cases (plainEnv snifThrows)
      (single (str "x.csv") (str "1,2")) (str "x.csv")).2.1
    (str "1,2") rfl).1 rfl


/-- C2: delimiter resolution depends only on the first 2048 characters of
the file; a header judgment uses the sniffed delimiter, a no-header
judgment falls back to comma, and any sniffing failure yields the
manual-delimiter prompt (`NeedsInput(delimiter)`), not an error. -/
theorem csv_delimiter_resolution_spec :
    (∀ (E : Env) (σ σ2 : Store) (p : Str),
      (σ p).map (List.take 2048) = (σ2 p).map (List.take 2048) →
      detect_csv_delimiter E σ p = detect_csv_delimiter E σ2 p) ∧
    (∀ (E : Env) (σ : Store) (p content d : Str), isCsvTxt p →
      σ p = some content →
      E.sniffer.hasHeader (content.take 2048) = .ok true →
      E.sniffer.sniff (content.take 2048) = .ok d → d ≠ [] →
      read_file E σ p none =
        (match read_csv content d with
         | .error _ => .error .parseError
         | .ok f => .ok (.value (.frame f)))) ∧
    (∀ (E : Env) (σ : Store) (p content : Str), isCsvTxt p →
      σ p = some content →
      E.sniffer.hasHeader (content.take 2048) = .ok false →
      read_file E σ p none =
        (match read_csv content (str ",") with
         | .error _ => .error .parseError
         | .ok f => .ok (.value (.frame f)))) ∧
    (∀ (E : Env) (σ : Store) (p content : Str), isCsvTxt p →
      σ p = some content →
      (E.sniffer.hasHeader (content.take 2048) = .error () ∨
        (E.sniffer.hasHeader (content.take 2048) = .ok true ∧
         E.sniffer.sniff (content.take 2048) = .error ())) →
      read_file E σ p none = .ok (.needsInput .delimiter none)) := by
  refine ⟨fun E σ σ2 p h => detect_sample_only h, ?_, ?_, ?_⟩
  · intro E σ p content d hcsv hσ hh hs hd
    have hdet : detect_csv_delimiter E σ p = some d := by
      unfold detect_csv_delimiter
      rw [hσ]
      dsimp only
      rw [hh, hs]
    rw [read_file_csv_of E σ none hcsv]
    unfold csvBranch
    rw [hdet]
    cases d with
    | nil => exact absurd rfl hd
    | cons c t =>
      dsimp only
      rw [hσ]
  · intro E σ p content hcsv hσ hh
    have hdet : detect_csv_delimiter E σ p = some (',' :: []) := by
      unfold detect_csv_delimiter
      rw [hσ]
      dsimp only
      rw [hh]
      rfl
    rw [read_file_csv_of E σ none hcsv]
    unfold csvBranch
    rw [hdet]
    dsimp only
    rw [hσ]
    rfl
  · intro E σ p content hcsv hσ hfail
    have hdet : detect_csv_delimiter E σ p = none := by
      unfold detect_csv_delimiter
      rw [hσ]
      dsimp only
      rcases hfail with hh | ⟨hh, hs⟩
      · rw [hh]
      · rw [hh, hs]
    rw [read_file_csv_of E σ none hcsv]
    unfold csvBranch
    rw [hdet]

/-- C2 witness: a semicolon-sniffing header judgment makes `read_file`
parse with the semicolon. -/
theorem csv_delimiter_resolution_spec_witness :
    read_file (plainEnv snifSemicolon) (single (str "w.csv") (str "a;b\nc;d"))
      (str "w.csv") none =
      (match read_csv (str "a;b\nc;d") (str ";") with
       | .error _ => .error .parseError
       | .ok f => .ok (.value (.frame f))) :=
  csv_delimiter_resolution_spec.2.1 (plainEnv snifSemicolon) _ (str "w.csv")
    (str "a;b\nc;d") (str ";") (by decide) rfl rfl rfl (by decide)

/-- C3 counterexample: the sniffer judges `1,2\n3,4` headerless, yet the
loader still consumes the first line `1,2` as the header — it is absent
from the data rows — contradicting "first row is the header *unless* the
sniffer already determined there is no header". -/
theorem loader_headers_despite_sniffer_no_header :
    noHeaderEnv.sniffer.hasHeader ((str "1,2\n3,4").take 2048) = .ok false ∧
    read_file noHeaderEnv csvStoreC3 (str "d.csv") none =
      .ok (.value (.frame ⟨[str "1", str "2"], [[str "3", str "4"]]⟩)) ∧
    [str "1", str "2"] ∉ (Frame.mk [str "1", str "2"] [[str "3", str "4"]]).rows ∧
    (Frame.mk [str "1", str "2"] [[str "3", str "4"]]).header =
      splitOnChar ',' (firstDataLine (str "1,2\n3,4")) :=
  ⟨rfl, rfl, by decide, rfl⟩

/-- C3 (amended): for every CSV/TXT file that resolves without prompting,
the loader parses with the resolved delimiter and always treats the first
(non-blank) row as the header — also when the sniffer determined there is
no header; the no-header judgment only selects the comma delimiter. -/
theorem csv_loader_always_first_row_header :
    ∀ (E : Env) (σ : Store) (p content d : Str), isCsvTxt p →
    σ p = some content → detect_csv_delimiter E σ p = some d → d ≠ [] →
    read_file E σ p none =
      (match read_csv content d with
       | .error _ => .error .parseError
       | .ok f => .ok (.value (.frame f))) ∧
    (∀ (c : Char) (f : Frame), d = [c] → read_csv content d = .ok f →
      f.header = splitOnChar c (firstDataLine content)) := by
  intro E σ p content d hcsv hσ hdet hd
  constructor
  · rw [read_file_csv_of E σ none hcsv]
    unfold csvBranch
    rw [hdet]
    cases d with
    | nil => exact absurd rfl hd
    | cons c t =>
      dsimp only
      rw [hσ]
  · intro c f hdc hok
    subst hdc
    rw [read_csv_singleChar] at hok
    unfold firstDataLine
    cases hsp : (splitOnChar '\n' content).filter (· ≠ []) with
    | nil =>
      rw [hsp] at hok
      exact absurd hok (by simp)
    | cons h rs =>
      rw [hsp] at hok
      dsimp only at hok
      split at hok
      · exact absurd hok (by simp)
      · injection hok with hX
        rw [← hX]
        rfl

/-- C3 witness: the amended claim at the headerless comma file. -/
theorem csv_loader_always_first_row_header_witness :
    read_file noHeaderEnv csvStoreC3 (str "d.csv") none =
      (match read_csv (str "1,2\n3,4") (str ",") with
       | .error _ => .error .parseError
       | .ok f => .ok (.value (.frame f))) ∧
    (Frame.mk [str "1", str "2"] [[str "3", str "4"]]).header =
      splitOnChar ',' (firstDataLine (str "1,2\n3,4")) :=
  have h := csv_loader_always_first_row_header noHeaderEnv csvStoreC3 (str "d.csv")
    (str "1,2\n3,4") (str ",") (by decide) rfl rfl (by decide)
  ⟨h.1, h.2 ',' (Frame.mk [str "1", str "2"] [[str "3", str "4"]]) rfl rfl⟩

/-- C5: submitting a manual delimiter causes exactly one parse attempt; a
failed parse is reported as an error with the upload abandoned (no preview,
no new prompt), and a successful parse clears the prompt and displays the
table. -/
theorem manual_delimiter_single_retry :
    ∀ (σ : Store) (p d : Str),
    (handle_manual_delimiter σ p d).count .parseAttempt = 1 ∧
    (∀ k o, Event.openedPrompt k o ∉ handle_manual_delimiter σ p d) ∧
    (σ p = none →
      handle_manual_delimiter σ p d = [.parseAttempt, .notifiedError]) ∧
    (∀ content, σ p = some content → read_csv content d = .error () →
      handle_manual_delimiter σ p d = [.parseAttempt, .notifiedError]) ∧
    (∀ content f, σ p = some content → read_csv content d = .ok f →
      handle_manual_delimiter σ p d =
        [.parseAttempt, .clearedPrompt, .displayedPreview (display_table f)]) := by
  intro σ p d
  cases hσ : σ p with
  | none =>
    have ht : handle_manual_delimiter σ p d = [.parseAttempt, .notifiedError] := by
      unfold handle_manual_delimiter
      rw [hσ]
    rw [ht]
    refine ⟨rfl, fun k o => by simp, fun _ => rfl, fun c2 hc hr2 => rfl, ?_⟩
    intro c2 f hc hr2
    exact absurd hc (by simp)
  | some content =>
    cases hrc : read_csv content d with
    | error e =>
      have ht : handle_manual_delimiter σ p d = [.parseAttempt, .notifiedError] := by
        unfold handle_manual_delimiter
        rw [hσ]
        dsimp only
        rw [hrc]
      rw [ht]
      refine ⟨rfl, fun k o => by simp, fun _ => rfl, fun c2 hc hr2 => rfl, ?_⟩
      intro c2 f hc hr2
      have hce : content = c2 := by injection hc
      rw [← hce, hrc] at hr2
      exact absurd hr2 (by simp)
    | ok f =>
      have ht : handle_manual_delimiter σ p d =
          [.parseAttempt, .clearedPrompt, .displayedPreview (display_table f)] := by
        unfold handle_manual_delimiter
        rw [hσ]
        dsimp only
        rw [hrc]
      rw [ht]
      refine ⟨rfl, fun k o => by simp, ?_, ?_, ?_⟩
      · intro hcon
        exact absurd hcon (by simp)
      · intro c2 hc hr2
        have hce : content = c2 := by injection hc
        rw [← hce, hrc] at hr2
        exact absurd hr2 (by simp)
      · intro c2 f2 hc hr2
        have hce : content = c2 := by injection hc
        rw [← hce, hrc] at hr2
        injection hr2 with hf
        rw [hf]

/-- C5 witness: a user-supplied comma on a ragged file fails once and is
reported, with no preview and no further prompt. -/
theorem manual_delimiter_single_retry_witness :
    handle_manual_delimiter badParseStore (str "temp/c.csv") (str ",") =
      [.parseAttempt, .notifiedError] :=
  (manual_delimiter_single_retry badParseStore (str "temp/c.csv") (str ",")).2.2.2.1
    (str "a,b\nc,d,e") rfl rfl


/-- C6: a dataset of N columns and M ≥ 10 rows written to comma-CSV and
loaded back yields the very same dataset, whose preview has exactly 10 rows
and the original ordered column-name list. -/
theorem csv_round_trip_preview :
    ∀ (E : Env) (σ : Store) (p : Str) (f : Frame),
    isCsvTxt p →
    σ p = some (write_csv f) →
    detect_csv_delimiter E σ p = some (str ",") →
    f.header ≠ [] →
    (∀ cell ∈ f.header, cell ≠ [] ∧ ',' ∉ cell ∧ '\n' ∉ cell) →
    (∀ r ∈ f.rows, r.length = f.header.length ∧
      ∀ cell ∈ r, cell ≠ [] ∧ ',' ∉ cell ∧ '\n' ∉ cell) →
    10 ≤ f.rows.length →
    read_file E σ p none = .ok (.value (.frame f)) ∧
    (display_table f).columns = f.header ∧
    (display_table f).rows.length = 10 := by
  intro E σ p f hcsv hσ hdet h1 h2 h3 hM
  have hrt : read_csv (write_csv f) (str ",") = .ok f := read_csv_write_csv f h1 h2 h3
  refine ⟨?_, rfl, ?_⟩
  · have hdet2 : detect_csv_delimiter E σ p = some (',' :: []) := hdet
    rw [read_file_csv_of E σ none hcsv]
    unfold csvBranch
    rw [hdet2]
    dsimp only
    rw [hσ]
    dsimp only
    have hrt2 : read_csv (write_csv f) (',' :: []) = .ok f := hrt
    rw [hrt2]
  · unfold display_table
    dsimp only
    rw [List.length_take]
    exact min_eq_left hM

/-- C6 witness: an 11-row, 2-column dataset round-trips to a 10-row
preview with the same columns. -/
theorem csv_round_trip_preview_witness :
    read_file noHeaderEnv (single (str "t.csv") (write_csv roundTripFrame))
      (str "t.csv") none = .ok (.value (.frame roundTripFrame)) ∧
    (display_table roundTripFrame).columns = roundTripFrame.header ∧
    (display_table roundTripFrame).rows.length = 10 :=
  csv_round_trip_preview noHeaderEnv _ (str "t.csv") roundTripFrame
    (by decide) rfl rfl (by decide) (by decide) (by decide) (by decide)

theorem handle_upload_events_store_free (E : Env) (σ τ : Store) (u : Upload) :
    (handle_upload E σ u).2 = (handle_upload E τ u).2 := by
  unfold handle_upload
  dsimp only
  rw [@read_file_local E (fun p => if p = tempPath u.name then some u.content else σ p)
    (fun p => if p = tempPath u.name then some u.content else τ p) (tempPath u.name)
    none (by simp)]

/-- C7: the previews of two uploads in one session do not interfere: the UI
events (including the preview) of an upload are a function of that upload
alone, whatever was uploaded before, so the second upload after the first
behaves exactly as it would alone. -/
theorem uploads_noninterference :
    ∀ (E : Env) (σ : Store) (u v : Upload),
    (handle_upload E σ u).2 = uploadEvents E u ∧
    (handle_upload E ((handle_upload E σ v).1) u).2 = uploadEvents E u :=
  fun E σ u v =>
    ⟨handle_upload_events_store_free E σ emptyStore u,
     handle_upload_events_store_free E ((handle_upload E σ v).1) emptyStore u⟩

/-- C8: an upload only writes its own temp file (keyed by the original
filename) and never deletes an existing one; `shutdown` removes exactly the
files under `temp/`, in particular every uploaded temp file. -/
theorem upload_preserves_shutdown_clears :
    ∀ (E : Env) (σ : Store) (u : Upload),
    (handle_upload E σ u).1 (tempPath u.name) = some u.content ∧
    (∀ p, p ≠ tempPath u.name → (handle_upload E σ u).1 p = σ p) ∧
    (∀ p c, σ p = some c → ∃ c2, (handle_upload E σ u).1 p = some c2) ∧
    (∀ (τ : Store) (p : Str), (str "temp/").isPrefixOf p = true →
      shutdownStore τ p = none) ∧
    (∀ (τ : Store) (p : Str), (str "temp/").isPrefixOf p = false →
      shutdownStore τ p = τ p) ∧
    shutdownStore (handle_upload E σ u).1 (tempPath u.name) = none := by
  intro E σ u
  have hpre : (str "temp/").isPrefixOf (tempPath u.name) = true := by
    rw [List.isPrefixOf_iff_prefix]
    exact List.prefix_append _ _
  refine ⟨?_, ?_, ?_, ?_, ?_, ?_⟩
  · unfold handle_upload
    dsimp only
    rw [if_pos rfl]
  · intro p hp
    unfold handle_upload
    dsimp only
    rw [if_neg hp]
  · intro p c hc
    by_cases hp : p = tempPath u.name
    · exact ⟨u.content, by unfold handle_upload; dsimp only; rw [if_pos hp]⟩
    · exact ⟨c, by unfold handle_upload; dsimp only; rw [if_neg hp]; exact hc⟩
  · intro τ p h
    unfold shutdownStore
    rw [h]
    rfl
  · intro τ p h
    unfold shutdownStore
    rw [h]
    rfl
  · unfold shutdownStore
    rw [hpre]
    rfl

/-- C8 witness: an unrelated file survives an upload, the uploaded temp
file exists afterwards, and `shutdown` removes it. -/
theorem upload_preserves_shutdown_clears_witness :
    (handle_upload noHeaderEnv (single (str "keep.txt") (str "1"))
      ⟨str "new.csv", str "2"⟩).1 (str "keep.txt") =
      single (str "keep.txt") (str "1") (str "keep.txt") ∧
    (handle_upload noHeaderEnv (single (str "keep.txt") (str "1"))
      ⟨str "new.csv", str "2"⟩).1 (tempPath (str "new.csv")) = some (str "2") ∧
    shutdownStore (handle_upload noHeaderEnv (single (str "keep.txt") (str "1"))
      ⟨str "new.csv", str "2"⟩).1 (tempPath (str "new.csv")) = none :=
  ⟨(upload_preserves_shutdown_clears noHeaderEnv _ _).2.1 (str "keep.txt") (by decide),
   (upload_preserves_shutdown_clears noHeaderEnv _ _).1,
   (upload_preserves_shutdown_clears noHeaderEnv _ _).2.2.2.2.2⟩

/-- C1 (evaluating the code at the failing input): on a workbook with
exactly one sheet and no pre-selected sheet name, `read_file` does not
prompt but returns the `sheet_name=None` dict of all sheets — not the sole
sheet's frame — and the upload ends in an error notification instead of a
preview; with two sheets it prompts with the full name list, and supplying
a name yields exactly that sheet's parse. -/
theorem excel_single_sheet_returns_dict :
    read_file excelEnv excelStore (str "one.xlsx") none =
      .ok (.value (.frameDict [(str "Sheet1", sheetFrame)])) ∧
    PyVal.frameDict [(str "Sheet1", sheetFrame)] ≠ PyVal.frame sheetFrame ∧
    (handle_upload excelEnv emptyStore ⟨str "one.xlsx", str "WB1"⟩).2 =
      [Event.notifiedError] ∧
    read_file excelEnv excelStore (str "two.xlsx") none =
      .ok (.needsInput .sheet (some [str "A", str "B"])) ∧
    read_file excelEnv excelStore (str "two.xlsx") (some (str "A")) =
      .ok (.value (.frame frameA)) ∧
    read_excel wbDouble (some (str "A")) = .ok (.frame frameA) :=
  ⟨rfl, by decide, rfl, rfl, rfl, rfl⟩

end TabularViewer
